import Mathlib

/-!
Shallow embedding of the conversation-context assembly and response
orchestration core of `src/bot.ts` (the first, featureful variant, whose
line numbers the claims cite).

External collaborators (the federation stack, the LLM client, the prompt
template files, the kv store's actual I/O, language detection, markdown
rendering and the `mentions` check) are modelled as an explicit
environment `Env` of oracles; the kv image cache is explicit state
(`KvState`).  Machine effects (likes, replies, completion requests) are
reified as an `Effect` trace; a rejected promise is an `Except.error`
carrying the thrown value, modelled as a `String`.
-/

namespace FediChatBot

deriving instance DecidableEq for Except

/-- Byte payloads (`ArrayBuffer` contents) as lists of byte values. -/
abbrev Bytes := List Nat

/-- Result of a successful `fetch`: the code never inspects the status
(a non-2xx response is not a failure in `toDataUrl`), but we keep it so
that this fact is visible in the model. -/
structure Fetched where
  status : Nat
  body : Bytes
deriving DecidableEq, Repr

/-- A remote actor as read by the core: `id?.href`, `name`, `summary`
(bio).  Icon/header dereference goes through the environment. -/
structure ActorT where
  id : Option String
  name : Option String
  summary : Option String
deriving DecidableEq, Repr

/-- A media attachment: `mediaType` hint and resolved `url` (already
collapsed from `url instanceof URL ? url : url?.href`). -/
structure Attachment where
  mediaType : Option String
  url : Option String
deriving DecidableEq, Repr

/-- An inbound message: author, optional text, attachments, mentioned
actors, and the reply-target back-reference.  The inductive structure
makes every chain acyclic, matching the well-formedness assumption of
the thread walker. -/
inductive Msg : Type where
  | mk : ActorT → Option String → List Attachment → List ActorT → Option Msg → Msg

def Msg.actor : Msg → ActorT
  | .mk a _ _ _ _ => a

def Msg.text : Msg → Option String
  | .mk _ t _ _ _ => t

def Msg.attachments : Msg → List Attachment
  | .mk _ _ att _ _ => att

def Msg.mentions : Msg → List ActorT
  | .mk _ _ _ men _ => men

def Msg.replyTarget : Msg → Option Msg
  | .mk _ _ _ _ r => r

/-- One part of a LangChain message content list: a `text` part (whose
`text` field mirrors a possibly-undefined JS string) or an `image_url`
part carrying a data URL. -/
inductive Part : Type where
  | text : Option String → Part
  | imageUrl : String → Part
deriving DecidableEq, Repr

/-- A role-tagged conversation turn (`SystemMessage` / `HumanMessage`
with content parts / `AIMessage`). -/
inductive ChatMsg : Type where
  | system : String → ChatMsg
  | human : List Part → ChatMsg
  | ai : Option String → ChatMsg
deriving DecidableEq, Repr

/-- State of the Deno.Kv image cache plus a count of network fetches
performed (for stating the single-fetch idempotence property). -/
structure KvState where
  cache : List (String × Bytes)
  fetches : Nat
deriving DecidableEq, Repr

/-- Reified externally visible effects of an event handler. -/
inductive Effect : Type where
  | llmStructured : List ChatMsg → Effect
  | llmInvoke : List ChatMsg → Effect
  | like : Effect
  | reply : String → String → Effect
  | publishPost : String → String → Effect
deriving DecidableEq, Repr

/-- Variables of the system prompt template. -/
structure SystemVars where
  fediverseHandle : String
  license : String
  version : String
  dateTime : String

/-- Variables of the follow-greeting template. -/
structure FollowVars where
  displayName : String
  fediverseHandle : String
  quotedBio : String

/-- Variables of the mention-reply template. -/
structure MentionVars where
  displayName : String
  fediverseHandle : String
  quotedBio : String

/-- Variables of the reaction-decision template. -/
structure ReactionVars where
  quotedMessage : String

/-- Environment of external collaborators: network, kv-store outcome,
protocol handle resolution, profile media dereference (with
`suppressError: true`, hence total), template rendering, the LLM, and
the text/publication helpers of BotKit. -/
structure Env where
  fetchResult : String → Except String Fetched
  setResult : String → Bytes → Option String
  getActorHandle : ActorT → Except String String
  getIcon : ActorT → Option (Option String)
  getImage : ActorT → Option (Option String)
  renderSystem : SystemVars → String
  renderFollow : FollowVars → String
  renderMention : MentionVars → String
  renderReaction : ReactionVars → String
  llmText : List ChatMsg → String
  llmLike : List ChatMsg → Bool
  detect : String → String
  markdown : String → String
  mentionsFn : String → ActorT → Bool
  mentionRender : ActorT → String
  license : String
  version : String
  dateTime : String

/-- The bot's session: its own actor id (`session.actorId.href`) and
handle. -/
structure Sess where
  actorId : String
  actorHandle : String

/-- The base64 alphabet. -/
def base64Alphabet : List Char :=
  String.toList "ABCDEFGHIJKLMNOPQRSTUVWXYZabcdefghijklmnopqrstuvwxyz0123456789+/"

def b64char (n : Nat) : Char := base64Alphabet.getD n 'A'

/-- RFC 4648 base64 of a byte list, as produced by `encodeBase64` of
`@std/encoding/base64`. -/
def encodeBase64Chars : Bytes → List Char
  | [] => []
  | [a] => [b64char (a / 4), b64char (a % 4 * 16), '=', '=']
  | [a, b] => [b64char (a / 4), b64char (a % 4 * 16 + b / 16), b64char (b % 16 * 4), '=']
  | a :: b :: c :: rest =>
      b64char (a / 4) :: b64char (a % 4 * 16 + b / 16) ::
        b64char (b % 16 * 4 + c / 64) :: b64char (c % 64) :: encodeBase64Chars rest

def encodeBase64 (b : Bytes) : String := String.mk (encodeBase64Chars b)

/-- The data-URL built by `toDataUrl`: the MIME label is the fixed
literal `image/jpeg` whatever the fetched content type was. -/
def dataUrl (b : Bytes) : String := "data:image/jpeg;base64," ++ encodeBase64 b

/-- Character-level model of `String.startsWith`, kept kernel-reducible. -/
def charsStartWith : List Char → List Char → Bool
  | _, [] => true
  | [], _ :: _ => false
  | c :: cs, p :: ps => (c = p) && charsStartWith cs ps

/-- `s.startsWith(pre)` of JS strings. -/
def strStartsWith (s pre : String) : Bool := charsStartWith s.data pre.data

/-- Association-list lookup modelling `get(kv, ["imageCache", url])`. -/
def lookupCache : List (String × Bytes) → String → Option Bytes
  | [], _ => none
  | (k, v) :: rest, u => if k = u then some v else lookupCache rest u

/-- `toDataUrl(imageUrl)`: cache lookup; on miss, fetch (the body bytes
are taken whatever the status), then `await set(...)` — a store failure
is NOT caught and so rejects the whole resolution — then cache the bytes
with the 3-hour expiry and return the fixed-MIME data URL. -/
def toDataUrl (env : Env) (imageUrl : String) (s : KvState) :
    Except String (String × KvState) :=
  match lookupCache s.cache imageUrl with
  | some bytes => .ok (dataUrl bytes, s)
  | none =>
      match env.fetchResult imageUrl with
      | .error e => .error e
      | .ok resp =>
          match env.setResult imageUrl resp.body with
          | some e => .error e
          | none =>
              .ok (dataUrl resp.body,
                   ⟨(imageUrl, resp.body) :: s.cache, s.fetches + 1⟩)

/-- The thread walker of `bot.onReply` (lines 154-157): the loop
`for (let m = msg; m.replyTarget != null; m = m.replyTarget)
   thread.unshift(m.replyTarget)` starting from `[msg]`, written as
structural recursion on the acyclic back-reference chain. -/
def buildThread : Msg → List Msg
  | .mk a t att men none => [.mk a t att men none]
  | .mk a t att men (some p) => buildThread p ++ [.mk a t att men (some p)]

/-- The character-level embedding of
`"\n".replaceAll`-style quoting: each newline of the source text is
replaced by a newline followed by the quote marker, i.e. the effect of
`t.replaceAll("\n", "\n> ")`. -/
def quoteNl : List Char → List Char
  | [] => []
  | c :: rest =>
      if c = '\n' then '\n' :: '>' :: ' ' :: quoteNl rest
      else c :: quoteNl rest

/-- The block-quote form used by the prompts:
`` `> ${t.replaceAll("\n", "\n> ")}` ``. -/
def blockQuote (t : String) : String := "> " ++ String.mk (quoteNl t.data)

/-- Modelled from the spec: the Text Sanitizer (the external `xss`
library's `FilterXSS` instantiated with an empty allow-list and
`stripIgnoreTag: true`, absent from `src/`) strips every markup tag,
keeping only the text outside tags.  `inTag` tracks whether we are
inside `<...>`. -/
def stripTagsAux : Bool → List Char → List Char
  | _, [] => []
  | true, '>' :: rest => stripTagsAux false rest
  | true, _ :: rest => stripTagsAux true rest
  | false, '<' :: rest => stripTagsAux true rest
  | false, c :: rest => c :: stripTagsAux false rest

/-- Modelled from the spec: `textXss.process`, see `stripTagsAux`. -/
def textXssProcess (t : String) : String := String.mk (stripTagsAux false t.data)

/-- The `quotedBio` template variable:
`bio == null ? "Not available." : sanitize-then-block-quote`. -/
def quotedBio (bio : Option String) : String :=
  match bio with
  | none => "Not available."
  | some b => blockQuote (textXssProcess b)

/-- The `quotedMessage` template variable of `getReactionPrompt`:
`msg == null ? "Not available." : block-quote of the raw text` — note
that unlike `quotedBio` no sanitization is applied. -/
def quotedMessage (t : Option String) : String :=
  match t with
  | none => "Not available."
  | some m => blockQuote m

/-- The inlined `try { await getActorHandle(actor) } catch
{ "not available" }` used identically by `getFollowPrompt` and
`getMentionPrompt`. -/
def resolveHandle (env : Env) (a : ActorT) : String :=
  match env.getActorHandle a with
  | .ok h => h
  | .error _ => "not available"

/-- The variables `getFollowPrompt` feeds to the follow template. -/
def getFollowVars (env : Env) (a : ActorT) : FollowVars :=
  ⟨a.name.getD "not available", resolveHandle env a, quotedBio a.summary⟩

def getFollowPrompt (env : Env) (a : ActorT) : String :=
  env.renderFollow (getFollowVars env a)

/-- The variables `getMentionPrompt` feeds to the mention template. -/
def getMentionVars (env : Env) (a : ActorT) : MentionVars :=
  ⟨a.name.getD "not available", resolveHandle env a, quotedBio a.summary⟩

def getMentionPrompt (env : Env) (a : ActorT) : String :=
  env.renderMention (getMentionVars env a)

/-- The variables `getReactionPrompt` feeds to the reaction template. -/
def getReactionVars (m : Msg) : ReactionVars := ⟨quotedMessage m.text⟩

def getReactionPrompt (env : Env) (m : Msg) : String :=
  env.renderReaction (getReactionVars m)

def getSystemPrompt (env : Env) (sess : Sess) : String :=
  env.renderSystem ⟨sess.actorHandle, env.license, env.version, env.dateTime⟩

/-- `msg.actor?.id?.href === session.actorId.href`. -/
def isBot (sess : Sess) (a : ActorT) : Bool :=
  decide (a.id = some sess.actorId)

/-- One step of `getIntroMessage`'s icon/header handling: if the
dereference produced a document with a usable URL, resolve it (a
`toDataUrl` rejection propagates) and append the image part; otherwise
leave the content untouched. -/
def introStep (env : Env) (urlOpt : Option (Option String)) (content : List Part)
    (s : KvState) : Except String (List Part × KvState) :=
  match urlOpt with
  | some (some u) =>
      match toDataUrl env u s with
      | .error e => .error e
      | .ok (d, s1) => .ok (content ++ [.imageUrl d], s1)
  | _ => .ok (content, s)

/-- `getIntroMessage(session, actor, prompt)`: a human turn holding the
prompt text, then the actor's icon and header images (each resolved via
`toDataUrl`, each dereference miss skipped). -/
def getIntroMessage (env : Env) (actor : ActorT) (prompt : String) (s : KvState) :
    Except String (ChatMsg × KvState) :=
  match introStep env (env.getIcon actor) [.text (some prompt)] s with
  | .error e => .error e
  | .ok (c1, s1) =>
      match introStep env (env.getImage actor) c1 s1 with
      | .error e => .error e
      | .ok (c2, s2) => .ok (.human c2, s2)

/-- The per-attachment closure of `getHumanMessage`: non-image media
types and missing URLs yield `null` (dropped later); an image URL is
resolved by `toDataUrl`, whose rejection propagates. -/
def resolveAttachment (env : Env) (doc : Attachment) (s : KvState) :
    Except String (Option Part × KvState) :=
  match doc.mediaType with
  | none => .ok (none, s)
  | some mt =>
      if strStartsWith mt "image/" then
        match doc.url with
        | none => .ok (none, s)
        | some u =>
            match toDataUrl env u s with
            | .error e => .error e
            | .ok (d, s1) => .ok (some (.imageUrl d), s1)
      else .ok (none, s)

/-- `Promise.all` over the attachment closures, with the cache state
threaded sequentially; any rejection rejects the whole list. -/
def resolveAttachments (env : Env) : List Attachment → KvState →
    Except String (List (Option Part) × KvState)
  | [], s => .ok ([], s)
  | d :: ds, s =>
      match resolveAttachment env d s with
      | .error e => .error e
      | .ok (p, s1) =>
          match resolveAttachments env ds s1 with
          | .error e => .error e
          | .ok (ps, s2) => .ok (p :: ps, s2)

/-- `getHumanMessage(msg, reaction)`: the text part (reaction template
or raw text), then the non-null resolved attachment parts. -/
def getHumanMessage (env : Env) (msg : Msg) (reaction : Bool) (s : KvState) :
    Except String (ChatMsg × KvState) :=
  match resolveAttachments env msg.attachments s with
  | .error e => .error e
  | .ok (ps, s1) =>
      .ok (.human (.text (if reaction then some (getReactionPrompt env msg)
                          else msg.text) :: ps.filterMap id), s1)

/-- The introduction-prompt choice of `bot.onReply` (lines 160-166):
if the thread root's author is the bot itself, the follow template
applied to `thread[0].mentions[0]` (a TypeError escapes when there is
no mention); otherwise the mention template applied to the root's
author. -/
def replyIntroPrompt (env : Env) (sess : Sess) (root : Msg) :
    Except String String :=
  if isBot sess root.actor then
    match root.mentions with
    | [] => .error "TypeError"
    | a :: _ => .ok (getFollowPrompt env a)
  else .ok (getMentionPrompt env root.actor)

/-- One thread message turned into a turn: an `AIMessage` of the raw
text when authored by the bot, else a (non-reaction) human turn. -/
def threadTurn (env : Env) (sess : Sess) (m : Msg) (s : KvState) :
    Except String (ChatMsg × KvState) :=
  if isBot sess m.actor then .ok (.ai m.text, s)
  else getHumanMessage env m false s

def threadTurns (env : Env) (sess : Sess) : List Msg → KvState →
    Except String (List ChatMsg × KvState)
  | [], s => .ok ([], s)
  | m :: ms, s =>
      match threadTurn env sess m s with
      | .error e => .error e
      | .ok (c, s1) =>
          match threadTurns env sess ms s1 with
          | .error e => .error e
          | .ok (cs, s2) => .ok (c :: cs, s2)

/-- The `mentions(session, md, actor) ? md : mention(actor)\n\nmd`
publication step shared by all three handlers. -/
def publishedText (env : Env) (md : String) (a : ActorT) : String :=
  if env.mentionsFn md a then md else env.mentionRender a ++ "\n\n" ++ md

/-- The effect trace common to `bot.onMention` and `bot.onReply` after
the contexts are built: structured reaction request, conditional like,
main completion request, and the reply with detected language. -/
def replyEffects (env : Env) (actor : ActorT) (rc pc : List ChatMsg) :
    List Effect :=
  let message := env.llmText pc
  let md := env.markdown message
  (Effect.llmStructured rc :: (if env.llmLike rc then [Effect.like] else [])) ++
    [Effect.llmInvoke pc, Effect.reply (publishedText env md actor) (env.detect message)]

/-- The two contexts built by `bot.onMention` (reaction first, then the
response context, which recomputes the intro and human turns). -/
def mentionContexts (env : Env) (sess : Sess) (msg : Msg) (s : KvState) :
    Except String (List ChatMsg × List ChatMsg × KvState) :=
  match getIntroMessage env msg.actor (getMentionPrompt env msg.actor) s with
  | .error e => .error e
  | .ok (intro1, s1) =>
      match getHumanMessage env msg true s1 with
      | .error e => .error e
      | .ok (hm1, s2) =>
          match getIntroMessage env msg.actor (getMentionPrompt env msg.actor) s2 with
          | .error e => .error e
          | .ok (intro2, s3) =>
              match getHumanMessage env msg false s3 with
              | .error e => .error e
              | .ok (hm2, s4) =>
                  .ok ([ChatMsg.system (getSystemPrompt env sess), intro1, hm1],
                       [ChatMsg.system (getSystemPrompt env sess), intro2, hm2], s4)

/-- `bot.onMention`: early return on a reply target, else the two
contexts and the shared effect trace. -/
def onMention (env : Env) (sess : Sess) (msg : Msg) (s : KvState) :
    Except String (List Effect × KvState) :=
  match msg.replyTarget with
  | some _ => .ok ([], s)
  | none =>
      match mentionContexts env sess msg s with
      | .error e => .error e
      | .ok (rc, pc, s1) => .ok (replyEffects env msg.actor rc pc, s1)

/-- The two contexts built by `bot.onReply`: the response context is
`messages` (system, intro, one turn per thread message) and the
reaction context is `messages.slice(0, -1)` plus the reaction-template
human turn for the trigger. -/
def replyContexts (env : Env) (sess : Sess) (msg : Msg) (s : KvState) :
    Except String (List ChatMsg × List ChatMsg × KvState) :=
  match replyIntroPrompt env sess ((buildThread msg).headD msg) with
  | .error e => .error e
  | .ok prompt =>
      match getIntroMessage env ((buildThread msg).headD msg).actor prompt s with
      | .error e => .error e
      | .ok (intro, s1) =>
          match threadTurns env sess (buildThread msg) s1 with
          | .error e => .error e
          | .ok (turns, s2) =>
              match getHumanMessage env ((buildThread msg).getLastD msg) true s2 with
              | .error e => .error e
              | .ok (rturn, s3) =>
                  .ok ((ChatMsg.system (getSystemPrompt env sess) :: intro :: turns).dropLast
                         ++ [rturn],
                       ChatMsg.system (getSystemPrompt env sess) :: intro :: turns, s3)

/-- `bot.onReply`: thread walk, contexts, shared effect trace. -/
def onReply (env : Env) (sess : Sess) (msg : Msg) (s : KvState) :
    Except String (List Effect × KvState) :=
  match replyContexts env sess msg s with
  | .error e => .error e
  | .ok (rc, pc, s1) => .ok (replyEffects env msg.actor rc pc, s1)

/-- `bot.onFollow`: system + introduction context, one completion
request, and a top-level publication with the mention-avoidance step. -/
def onFollow (env : Env) (sess : Sess) (actor : ActorT) (s : KvState) :
    Except String (List Effect × KvState) :=
  match getIntroMessage env actor (getFollowPrompt env actor) s with
  | .error e => .error e
  | .ok (intro, s1) =>
      let ctx := [ChatMsg.system (getSystemPrompt env sess), intro]
      let message := env.llmText ctx
      let md := env.markdown message
      .ok ([Effect.llmInvoke ctx,
            Effect.publishPost (publishedText env md actor) (env.detect message)], s1)

/-! ## Helper lemmas -/

theorem buildThread_root (m : Msg) (h : m.replyTarget = none) :
    buildThread m = [m] := by
  cases m with
  | mk a t att men r =>
    cases r with
    | none => rfl
    | some p => simp [Msg.replyTarget] at h

theorem buildThread_step (m p : Msg) (h : m.replyTarget = some p) :
    buildThread m = buildThread p ++ [m] := by
  cases m with
  | mk a t att men r =>
    cases r with
    | none => simp [Msg.replyTarget] at h
    | some q =>
      simp only [Msg.replyTarget, Option.some.injEq] at h
      subst h
      rfl

/-! ## Concrete fixtures used by witnesses and counterexamples -/

/-- A benign environment: all network operations succeed, the bot adds
no likes, nothing mentions anybody. -/
def baseEnv : Env where
  fetchResult := fun _ => .ok ⟨200, [1, 2, 3]⟩
  setResult := fun _ _ => none
  getActorHandle := fun a => .ok (a.name.getD "x")
  getIcon := fun _ => none
  getImage := fun _ => none
  renderSystem := fun v => v.fediverseHandle
  renderFollow := fun v => "F:" ++ v.displayName
  renderMention := fun v => "M:" ++ v.displayName
  renderReaction := fun v => "R:" ++ v.quotedMessage
  llmText := fun _ => "output"
  llmLike := fun _ => false
  detect := fun _ => "en"
  markdown := fun t => t
  mentionsFn := fun _ _ => false
  mentionRender := fun a => "@" ++ a.name.getD ""
  license := "AGPL-3.0"
  version := "0.0.1"
  dateTime := "now"

def sessW : Sess := ⟨"https://bot.example/actor", "@bot@bot.example"⟩

def aliceW : ActorT := ⟨some "https://a.example/alice", some "Alice", none⟩

def botActorW : ActorT := ⟨some "https://bot.example/actor", some "Bot", none⟩

def rootW : Msg := .mk aliceW (some "root") [] [] none
def aW : Msg := .mk aliceW (some "A") [] [] (some rootW)
def bW : Msg := .mk aliceW (some "B") [] [] (some aW)
def cW : Msg := .mk aliceW (some "C") [] [] (some bW)

/-! ## C1: thread walk order -/

/-- C1: for an acyclic chain root→A→B→C with C the trigger, the reply
handler's thread walk produces `[root, A, B, C]`: ancestors prepended,
oldest first, ending with the trigger. -/
theorem C1_thread_order (root a b c : Msg)
    (h0 : root.replyTarget = none) (h1 : a.replyTarget = some root)
    (h2 : b.replyTarget = some a) (h3 : c.replyTarget = some b) :
    buildThread c = [root, a, b, c] := by
  rw [buildThread_step c b h3, buildThread_step b a h2,
      buildThread_step a root h1, buildThread_root root h0]
  rfl

/-- C1 witness: the chain rootW→aW→bW→cW. -/
theorem C1_witness : buildThread cW = [rootW, aW, bW, cW] :=
  C1_thread_order rootW aW bW cW rfl rfl rfl rfl

/-! ## C6: handle resolution never raises -/

/-- C6: handle resolution (the `try { getActorHandle } catch` inlined in
`getFollowPrompt` and `getMentionPrompt`) is total: it yields the
protocol-resolved handle on success and exactly the literal
`"not available"` on any failure, and it is the `fediverseHandle`
variable of both prompt templates. -/
theorem C6_resolve_handle (env : Env) (a : ActorT) :
    (getFollowVars env a).fediverseHandle = resolveHandle env a ∧
    (getMentionVars env a).fediverseHandle = resolveHandle env a ∧
    (match env.getActorHandle a with
     | .ok h => resolveHandle env a = h
     | .error _ => resolveHandle env a = "not available") := by
  refine ⟨rfl, rfl, ?_⟩
  cases h : env.getActorHandle a <;> simp [resolveHandle, h]

/-! ## C9: conditional self-mention before publication -/

/-- C9: the publication step shared by the three handlers publishes the
rendered output unchanged when it already mentions the target actor,
and otherwise prepends exactly one explicit mention followed by a blank
line — one of the two, decided by the single `mentions` test. -/
theorem C9_mention_avoidance (env : Env) (md : String) (a : ActorT) :
    (env.mentionsFn md a = true → publishedText env md a = md) ∧
    (env.mentionsFn md a = false →
      publishedText env md a = env.mentionRender a ++ "\n\n" ++ md) := by
  constructor <;> intro h <;> simp [publishedText, h]

/-- C9 witness: with nothing mentioned, the mention is prepended. -/
theorem C9_witness :
    publishedText baseEnv "hello" aliceW = "@Alice" ++ "\n\n" ++ "hello" :=
  (C9_mention_avoidance baseEnv "hello" aliceW).2 rfl

/-! ## C10: the mention handler ignores replies -/

/-- C10: a mention whose message has a reply target makes `bot.onMention`
return immediately: no completion request, no like, no reply, and the
cache untouched. -/
theorem C10_mention_guard (env : Env) (sess : Sess) (msg t : Msg) (s : KvState)
    (h : msg.replyTarget = some t) : onMention env sess msg s = .ok ([], s) := by
  unfold onMention
  rw [h]

/-- C10 witness: `aW` replies to `rootW`, so the mention handler is a
no-op on it. -/
theorem C10_witness : onMention baseEnv sessW aW ⟨[], 0⟩ = .ok ([], ⟨[], 0⟩) :=
  C10_mention_guard baseEnv sessW aW rootW ⟨[], 0⟩ rfl

/-! ## C3: cache store failure is NOT swallowed -/

def envStoreFail : Env := { baseEnv with setResult := fun _ _ => some "store failure" }

/-- C3 counterexample: the fetch succeeds with bytes `[1, 2, 3]`, the
cache store fails, and resolution does NOT return the data URL of the
fresh bytes — the un-caught `await set(...)` rejection propagates. -/
theorem C3_counterexample :
    envStoreFail.fetchResult "u" = .ok ⟨200, [1, 2, 3]⟩ ∧
    envStoreFail.setResult "u" [1, 2, 3] = some "store failure" ∧
    toDataUrl envStoreFail "u" ⟨[], 0⟩ = .error "store failure" :=
  ⟨rfl, rfl, rfl⟩

/-- C3 amended: on a cache miss with a successful fetch, a failing cache
store makes `toDataUrl` fail with the store error (it is not swallowed),
and only a successful store lets resolution return the data URL of the
freshly fetched bytes (now cached). -/
theorem C3_amended (env : Env) (u : String) (s : KvState) (r : Fetched)
    (hmiss : lookupCache s.cache u = none)
    (hfetch : env.fetchResult u = .ok r) :
    (∀ e, env.setResult u r.body = some e → toDataUrl env u s = .error e) ∧
    (env.setResult u r.body = none →
      toDataUrl env u s =
        .ok (dataUrl r.body, ⟨(u, r.body) :: s.cache, s.fetches + 1⟩)) := by
  constructor
  · intro e hset
    unfold toDataUrl
    rw [hmiss, hfetch]
    simp [hset]
  · intro hset
    unfold toDataUrl
    rw [hmiss, hfetch]
    simp [hset]

/-- C3 amended witness: both branches at concrete inputs. -/
theorem C3_witness :
    toDataUrl envStoreFail "v" ⟨[], 0⟩ = .error "store failure" ∧
    toDataUrl baseEnv "v" ⟨[], 0⟩ =
      .ok (dataUrl [1, 2, 3], ⟨[("v", [1, 2, 3])], 1⟩) :=
  ⟨(C3_amended envStoreFail "v" ⟨[], 0⟩ ⟨200, [1, 2, 3]⟩ rfl rfl).1 "store failure" rfl,
   (C3_amended baseEnv "v" ⟨[], 0⟩ ⟨200, [1, 2, 3]⟩ rfl rfl).2 rfl⟩

/-! ## C7: resolve-twice idempotence with a single fetch -/

/-- C7: resolving a URL twice within the TTL window (first call a miss
whose fetch and store succeed) performs exactly one network fetch — the
fetch counter rises once and the second call, a cache hit, leaves the
state unchanged — and both calls return the identical string
`data:image/jpeg;base64,<base64 of the fetched bytes>`, the MIME label
being the fixed `image/jpeg` literal. -/
theorem C7_cache_idempotent (env : Env) (u : String) (s : KvState) (r : Fetched)
    (hmiss : lookupCache s.cache u = none)
    (hfetch : env.fetchResult u = .ok r)
    (hset : env.setResult u r.body = none) :
    toDataUrl env u s =
      .ok (dataUrl r.body, ⟨(u, r.body) :: s.cache, s.fetches + 1⟩) ∧
    toDataUrl env u ⟨(u, r.body) :: s.cache, s.fetches + 1⟩ =
      .ok (dataUrl r.body, ⟨(u, r.body) :: s.cache, s.fetches + 1⟩) ∧
    dataUrl r.body = "data:image/jpeg;base64," ++ encodeBase64 r.body := by
  refine ⟨?_, ?_, rfl⟩
  · unfold toDataUrl
    rw [hmiss, hfetch]
    simp [hset]
  · unfold toDataUrl
    simp [lookupCache]

/-- C7 witness: the double resolution of `"w"` under `baseEnv`. -/
theorem C7_witness :
    toDataUrl baseEnv "w" ⟨[], 0⟩ =
      .ok (dataUrl [1, 2, 3], ⟨[("w", [1, 2, 3])], 1⟩) ∧
    toDataUrl baseEnv "w" ⟨[("w", [1, 2, 3])], 1⟩ =
      .ok (dataUrl [1, 2, 3], ⟨[("w", [1, 2, 3])], 1⟩) ∧
    dataUrl [1, 2, 3] = "data:image/jpeg;base64," ++ encodeBase64 [1, 2, 3] :=
  C7_cache_idempotent baseEnv "w" ⟨[], 0⟩ ⟨200, [1, 2, 3]⟩ rfl rfl rfl

/-! ## C2: image-resolution failures and context assembly -/

/-- Whether the attachment's media-type hint passes the
`doc.mediaType?.startsWith("image/")` test. -/
def isImage (doc : Attachment) : Bool :=
  match doc.mediaType with
  | some mt => strStartsWith mt "image/"
  | none => false

def envNetFail : Env := { baseEnv with fetchResult := fun _ => .error "network failure" }

def imgAttachment : Attachment := ⟨some "image/png", some "https://a.example/p.png"⟩

/-- A triggering reply that carries one image attachment. -/
def trigC2 : Msg := .mk aliceW (some "look") [imgAttachment] [] (some rootW)

/-- C2 counterexample: with the network failing, the triggering reply's
single image attachment does not get silently omitted — the un-caught
`toDataUrl` rejection aborts the whole reply handler, so no context is
produced at all. -/
theorem C2_counterexample :
    onReply envNetFail sessW trigC2 ⟨[], 0⟩ = .error "network failure" := by
  decide

/-- C2 amended: attachments that are not images or lack a URL are
silently omitted (and a missing icon/header is silently skipped), but a
`toDataUrl` failure on an image attachment propagates through
`resolveAttachment` and `getHumanMessage`, aborting context assembly. -/
theorem C2_amended (env : Env) :
    (∀ doc s, isImage doc = false → resolveAttachment env doc s = .ok (none, s)) ∧
    (∀ doc s, doc.url = none → resolveAttachment env doc s = .ok (none, s)) ∧
    (∀ doc u s e, isImage doc = true → doc.url = some u →
      toDataUrl env u s = .error e → resolveAttachment env doc s = .error e) ∧
    (∀ msg r s e, resolveAttachments env msg.attachments s = .error e →
      getHumanMessage env msg r s = .error e) ∧
    (∀ actor prompt s, env.getIcon actor = none → env.getImage actor = none →
      getIntroMessage env actor prompt s = .ok (.human [.text (some prompt)], s)) := by
  refine ⟨?_, ?_, ?_, ?_, ?_⟩
  · intro doc s h
    unfold isImage at h
    unfold resolveAttachment
    cases hd : doc.mediaType with
    | none => rfl
    | some mt =>
        rw [hd] at h
        simp only [] at h
        simp [h]
  · intro doc s h
    unfold resolveAttachment
    cases hd : doc.mediaType with
    | none => rfl
    | some mt =>
        by_cases hs : strStartsWith mt "image/"
        · simp [hs, h]
        · simp [hs]
  · intro doc u s e himg hu htd
    unfold isImage at himg
    unfold resolveAttachment
    cases hd : doc.mediaType with
    | none => rw [hd] at himg; cases himg
    | some mt =>
        rw [hd] at himg
        simp only [] at himg
        simp [himg, hu, htd]
  · intro msg r s e h
    unfold getHumanMessage
    rw [h]
  · intro actor prompt s hi hh
    unfold getIntroMessage introStep
    rw [hi, hh]

/-- C2 amended witness: a non-image attachment is dropped while the
failing image attachment of `trigC2` aborts `getHumanMessage`. -/
theorem C2_witness :
    resolveAttachment baseEnv ⟨some "video/mp4", some "u"⟩ ⟨[], 0⟩ = .ok (none, ⟨[], 0⟩) ∧
    getHumanMessage envNetFail trigC2 false ⟨[], 0⟩ = .error "network failure" :=
  ⟨(C2_amended baseEnv).1 ⟨some "video/mp4", some "u"⟩ ⟨[], 0⟩ (by decide),
   (C2_amended envNetFail).2.2.2.1 trigC2 false ⟨[], 0⟩ "network failure" (by decide)⟩

/-! ## C5: the introduction subject and template of the reply handler -/

/-- A root message authored by the bot itself, mentioning Alice. -/
def rootBotW : Msg := .mk botActorW (some "hello world") [] [aliceW] none

/-- C5 counterexample: when the thread root's author is the bot, the
follow template is rendered from `thread[0].mentions[0]` (Alice), not
from the root's author, so the intro prompt differs from the
follow prompt of the root author. -/
theorem C5_counterexample :
    replyIntroPrompt baseEnv sessW rootBotW = .ok "F:Alice" ∧
    getFollowPrompt baseEnv rootBotW.actor = "F:Bot" ∧
    replyIntroPrompt baseEnv sessW rootBotW ≠
      .ok (getFollowPrompt baseEnv rootBotW.actor) := by
  refine ⟨by decide, by decide, by decide⟩

/-- C5 amended: the reply handler's introduction turn keeps the root's
author as subject, and the template choice still tests whether the
root's author is the bot; but when it is, the follow template is applied
to the root message's first mentioned actor, while the mention template
is applied to the root's author otherwise. -/
theorem C5_amended (env : Env) (sess : Sess) (root : Msg) :
    (∀ a rest, isBot sess root.actor = true → root.mentions = a :: rest →
      replyIntroPrompt env sess root = .ok (getFollowPrompt env a)) ∧
    (isBot sess root.actor = false →
      replyIntroPrompt env sess root = .ok (getMentionPrompt env root.actor)) := by
  constructor
  · intro a rest hbot hm
    unfold replyIntroPrompt
    rw [hbot, hm]
    rfl
  · intro hbot
    unfold replyIntroPrompt
    rw [hbot]
    rfl

/-- C5 amended witness: both template branches at concrete inputs. -/
theorem C5_witness :
    replyIntroPrompt baseEnv sessW rootBotW = .ok (getFollowPrompt baseEnv aliceW) ∧
    replyIntroPrompt baseEnv sessW rootW = .ok (getMentionPrompt baseEnv rootW.actor) :=
  ⟨(C5_amended baseEnv sessW rootBotW).1 aliceW [] (by decide) rfl,
   (C5_amended baseEnv sessW rootW).2 (by decide)⟩

/-! ## C8: sanitize-then-quote -/

/-- Splitting a character list at newlines (the spec-side notion of the
"lines" of a text; never returns an empty list of lines). -/
def splitLinesAux : List Char → List (List Char)
  | [] => [[]]
  | c :: rest =>
      if c = '\n' then [] :: splitLinesAux rest
      else
        match splitLinesAux rest with
        | [] => [[c]]
        | l :: ls => (c :: l) :: ls

/-- Joining lines with each line quoted by a leading marker — the
spec's "every line prefixed by the block-quote marker". -/
def quotedLines : List (List Char) → List Char
  | [] => []
  | [l] => '>' :: ' ' :: l
  | l :: ls => '>' :: ' ' :: (l ++ '\n' :: quotedLines ls)

/-- The spec-side quoted form of a text: every one of its lines
prefixed by the marker, joined back with newlines. -/
def quoteEachLine (t : String) : String :=
  String.mk (quotedLines (splitLinesAux t.data))

theorem splitLinesAux_ne_nil (t : List Char) : splitLinesAux t ≠ [] := by
  cases t with
  | nil => simp [splitLinesAux]
  | cons c rest =>
      by_cases h : c = '\n'
      · simp [splitLinesAux, h]
      · simp only [splitLinesAux, h, if_false]
        cases hs : splitLinesAux rest <;> simp

theorem quotedLines_splitLines (t : List Char) :
    quotedLines (splitLinesAux t) = '>' :: ' ' :: quoteNl t := by
  induction t with
  | nil => rfl
  | cons c rest ih =>
      rcases hs : splitLinesAux rest with _ | ⟨l, ls⟩
      · exact absurd hs (splitLinesAux_ne_nil rest)
      · rw [hs] at ih
        by_cases h : c = '\n'
        · subst h
          have e1 : splitLinesAux ('\n' :: rest) = [] :: l :: ls := by
            simp [splitLinesAux, hs]
          have e2 : quoteNl ('\n' :: rest) = '\n' :: '>' :: ' ' :: quoteNl rest := by
            simp [quoteNl]
          rw [e1, e2]
          show '>' :: ' ' :: ([] ++ '\n' :: quotedLines (l :: ls)) = _
          simp [ih]
        · have e1 : splitLinesAux (c :: rest) = (c :: l) :: ls := by
            simp [splitLinesAux, h, hs]
          have e2 : quoteNl (c :: rest) = c :: quoteNl rest := by
            simp [quoteNl, h]
          rw [e1, e2]
          cases ls with
          | nil =>
              have hl : l = quoteNl rest := by
                have := ih
                simp only [quotedLines, List.cons.injEq] at this
                exact this.2.2
              show '>' :: ' ' :: (c :: l) = _
              simp [hl]
          | cons l2 ls2 =>
              have hl : l ++ '\n' :: quotedLines (l2 :: ls2) = quoteNl rest := by
                have := ih
                simp only [quotedLines, List.cons.injEq] at this
                exact this.2.2
              show '>' :: ' ' :: ((c :: l) ++ '\n' :: quotedLines (l2 :: ls2)) = _
              simp [← hl]

/-- The source's quoting (`"> " + t.replaceAll("\n", "\n> ")`) equals
the spec's "every line prefixed" form. -/
theorem blockQuote_eq_quoteEachLine (t : String) :
    blockQuote t = quoteEachLine t := by
  cases t with
  | mk data =>
      show "> " ++ String.mk (quoteNl data) = String.mk (quotedLines (splitLinesAux data))
      rw [quotedLines_splitLines]
      rfl

/-- A message whose text carries markup. -/
def taggedMsg : Msg := .mk aliceW (some "<b>hi</b>") [] [] none

/-- C8 counterexample: the reaction template's quoted message embeds the
raw text `"> <b>hi</b>"`, which is not the sanitize-then-quote form
`"> hi"` — `getReactionPrompt` never calls the sanitizer. -/
theorem C8_counterexample :
    (getReactionVars taggedMsg).quotedMessage = "> <b>hi</b>" ∧
    blockQuote (textXssProcess "<b>hi</b>") = "> hi" ∧
    (getReactionVars taggedMsg).quotedMessage ≠
      blockQuote (textXssProcess "<b>hi</b>") := by
  refine ⟨by decide, by decide, by decide⟩

/-- C8 amended: the biography really is sanitized first and then gets
every line prefixed by the block-quote marker, but the reaction
template's quoted message is the raw message text with every line
prefixed — no sanitization is applied in that case. -/
theorem C8_quoting_amended :
    (∀ env a, (getFollowVars env a).quotedBio = quotedBio a.summary) ∧
    (∀ env a, (getMentionVars env a).quotedBio = quotedBio a.summary) ∧
    (∀ m : Msg, (getReactionVars m).quotedMessage = quotedMessage m.text) ∧
    (∀ b : String, quotedBio (some b) = quoteEachLine (textXssProcess b)) ∧
    (∀ m : String, quotedMessage (some m) = quoteEachLine m) := by
  refine ⟨fun _ _ => rfl, fun _ _ => rfl, fun _ => rfl, ?_, ?_⟩
  · intro b
    show blockQuote (textXssProcess b) = _
    rw [blockQuote_eq_quoteEachLine]
  · intro m
    show blockQuote m = _
    rw [blockQuote_eq_quoteEachLine]

/-! ## C4: cache monotonicity machinery and the reaction context -/

/-- Lookup-monotone extension of cache states: every cached entry stays
visible.  All cache operations of the core only cons fresh keys, so
every step of a handler extends the state in this sense. -/
def cacheLe (s t : KvState) : Prop :=
  ∀ u b, lookupCache s.cache u = some b → lookupCache t.cache u = some b

theorem cacheLe_refl (s : KvState) : cacheLe s s := fun _ _ h => h

theorem cacheLe_trans {s t w : KvState} (h1 : cacheLe s t) (h2 : cacheLe t w) :
    cacheLe s w := fun u b h => h2 u b (h1 u b h)

theorem toDataUrl_ok {env : Env} {u d : String} {s s' : KvState}
    (h : toDataUrl env u s = .ok (d, s')) :
    (∃ b, lookupCache s'.cache u = some b ∧ d = dataUrl b) ∧ cacheLe s s' := by
  unfold toDataUrl at h
  cases hl : lookupCache s.cache u with
  | some bytes =>
      simp only [hl] at h
      simp only [Except.ok.injEq, Prod.mk.injEq] at h
      obtain ⟨hd, hst⟩ := h
      subst hst
      exact ⟨⟨bytes, hl, hd.symm⟩, cacheLe_refl s⟩
  | none =>
      simp only [hl] at h
      cases hf : env.fetchResult u with
      | error e => simp only [hf] at h; simp at h
      | ok resp =>
          simp only [hf] at h
          cases hset : env.setResult u resp.body with
          | some e => simp only [hset] at h; simp at h
          | none =>
              simp only [hset] at h
              simp only [Except.ok.injEq, Prod.mk.injEq] at h
              obtain ⟨hd, hst⟩ := h
              subst hst
              constructor
              · refine ⟨resp.body, ?_, hd.symm⟩
                show lookupCache ((u, resp.body) :: s.cache) u = some resp.body
                simp [lookupCache]
              · intro u' b hb
                show lookupCache ((u, resp.body) :: s.cache) u' = some b
                by_cases he : u = u'
                · subst he; rw [hl] at hb; cases hb
                · simpa [lookupCache, he] using hb

theorem toDataUrl_hit {env : Env} {u : String} {s : KvState} {b : Bytes}
    (h : lookupCache s.cache u = some b) : toDataUrl env u s = .ok (dataUrl b, s) := by
  unfold toDataUrl
  rw [h]

theorem toDataUrl_stable {env : Env} {u d : String} {s s' : KvState}
    (h : toDataUrl env u s = .ok (d, s')) {t : KvState} (hle : cacheLe s' t) :
    toDataUrl env u t = .ok (d, t) := by
  obtain ⟨⟨b, hb, hd⟩, _⟩ := toDataUrl_ok h
  subst hd
  exact toDataUrl_hit (hle u b hb)

theorem introStep_ok {env : Env} {io : Option (Option String)} {c res : List Part}
    {s s' : KvState} (h : introStep env io c s = .ok (res, s')) :
    cacheLe s s' ∧ ∀ t, cacheLe s' t → introStep env io c t = .ok (res, t) := by
  cases io with
  | none =>
      unfold introStep at h
      simp only [Except.ok.injEq, Prod.mk.injEq] at h
      obtain ⟨h1, h2⟩ := h
      subst h1; subst h2
      exact ⟨cacheLe_refl s, fun t _ => rfl⟩
  | some io2 =>
      cases io2 with
      | none =>
          unfold introStep at h
          simp only [Except.ok.injEq, Prod.mk.injEq] at h
          obtain ⟨h1, h2⟩ := h
          subst h1; subst h2
          exact ⟨cacheLe_refl s, fun t _ => rfl⟩
      | some u =>
          unfold introStep at h
          cases htd : toDataUrl env u s with
          | error e => simp only [htd] at h; simp at h
          | ok v =>
              obtain ⟨d, s1⟩ := v
              simp only [htd] at h
              simp only [Except.ok.injEq, Prod.mk.injEq] at h
              obtain ⟨h1, h2⟩ := h
              subst h1; subst h2
              refine ⟨(toDataUrl_ok htd).2, ?_⟩
              intro t hle
              unfold introStep
              simp only [toDataUrl_stable htd hle]

theorem getIntro_ok {env : Env} {actor : ActorT} {prompt : String} {m : ChatMsg}
    {s s' : KvState} (h : getIntroMessage env actor prompt s = .ok (m, s')) :
    cacheLe s s' ∧ ∀ t, cacheLe s' t → getIntroMessage env actor prompt t = .ok (m, t) := by
  unfold getIntroMessage at h
  cases h1 : introStep env (env.getIcon actor) [.text (some prompt)] s with
  | error e => simp only [h1] at h; simp at h
  | ok v =>
      obtain ⟨c1, s1⟩ := v
      simp only [h1] at h
      cases h2 : introStep env (env.getImage actor) c1 s1 with
      | error e => simp only [h2] at h; simp at h
      | ok v2 =>
          obtain ⟨c2, s2⟩ := v2
          simp only [h2] at h
          simp only [Except.ok.injEq, Prod.mk.injEq] at h
          obtain ⟨hm, hst⟩ := h
          subst hm; subst hst
          obtain ⟨le1, st1⟩ := introStep_ok h1
          obtain ⟨le2, st2⟩ := introStep_ok h2
          refine ⟨cacheLe_trans le1 le2, ?_⟩
          intro t hle
          unfold getIntroMessage
          simp only [st1 t (cacheLe_trans le2 hle), st2 t hle]

theorem resolveAttachment_le {env : Env} {doc : Attachment} {p : Option Part}
    {s s' : KvState} (h : resolveAttachment env doc s = .ok (p, s')) : cacheLe s s' := by
  unfold resolveAttachment at h
  cases hd : doc.mediaType with
  | none =>
      simp only [hd] at h
      simp only [Except.ok.injEq, Prod.mk.injEq] at h
      obtain ⟨_, hst⟩ := h
      subst hst
      exact cacheLe_refl s
  | some mt =>
      simp only [hd] at h
      by_cases hs : strStartsWith mt "image/"
      · rw [if_pos hs] at h
        cases hu : doc.url with
        | none =>
            simp only [hu] at h
            simp only [Except.ok.injEq, Prod.mk.injEq] at h
            obtain ⟨_, hst⟩ := h
            subst hst
            exact cacheLe_refl s
        | some u =>
            simp only [hu] at h
            cases htd : toDataUrl env u s with
            | error e => simp only [htd] at h; simp at h
            | ok v =>
                obtain ⟨d, s1⟩ := v
                simp only [htd] at h
                simp only [Except.ok.injEq, Prod.mk.injEq] at h
                obtain ⟨_, hst⟩ := h
                subst hst
                exact (toDataUrl_ok htd).2
      · rw [if_neg hs] at h
        simp only [Except.ok.injEq, Prod.mk.injEq] at h
        obtain ⟨_, hst⟩ := h
        subst hst
        exact cacheLe_refl s

theorem resolveAttachments_le {env : Env} {ds : List Attachment}
    {ps : List (Option Part)} {s s' : KvState}
    (h : resolveAttachments env ds s = .ok (ps, s')) : cacheLe s s' := by
  induction ds generalizing s ps with
  | nil =>
      unfold resolveAttachments at h
      simp only [Except.ok.injEq, Prod.mk.injEq] at h
      obtain ⟨_, hst⟩ := h
      subst hst
      exact cacheLe_refl s
  | cons d ds ih =>
      unfold resolveAttachments at h
      cases h1 : resolveAttachment env d s with
      | error e => simp only [h1] at h; simp at h
      | ok v =>
          obtain ⟨p, s1⟩ := v
          simp only [h1] at h
          cases h2 : resolveAttachments env ds s1 with
          | error e => simp only [h2] at h; simp at h
          | ok v2 =>
              obtain ⟨ps2, s2⟩ := v2
              simp only [h2] at h
              simp only [Except.ok.injEq, Prod.mk.injEq] at h
              obtain ⟨_, hst⟩ := h
              subst hst
              exact cacheLe_trans (resolveAttachment_le h1) (ih h2)

theorem getHuman_le {env : Env} {msg : Msg} {r : Bool} {m : ChatMsg}
    {s s' : KvState} (h : getHumanMessage env msg r s = .ok (m, s')) : cacheLe s s' := by
  unfold getHumanMessage at h
  cases h1 : resolveAttachments env msg.attachments s with
  | error e => simp only [h1] at h; simp at h
  | ok v =>
      obtain ⟨ps, s1⟩ := v
      simp only [h1] at h
      simp only [Except.ok.injEq, Prod.mk.injEq] at h
      obtain ⟨_, hst⟩ := h
      subst hst
      exact resolveAttachments_le h1

theorem getHuman_shape {env : Env} {msg : Msg} {r : Bool} {m : ChatMsg}
    {s s' : KvState} (h : getHumanMessage env msg r s = .ok (m, s')) :
    ∃ ps, m = .human (.text (if r then some (getReactionPrompt env msg)
                             else msg.text) :: ps) := by
  unfold getHumanMessage at h
  cases h1 : resolveAttachments env msg.attachments s with
  | error e => simp only [h1] at h; simp at h
  | ok v =>
      obtain ⟨ps, s1⟩ := v
      simp only [h1] at h
      simp only [Except.ok.injEq, Prod.mk.injEq] at h
      exact ⟨ps.filterMap id, h.1.symm⟩

theorem buildThread_getLast (m : Msg) : (buildThread m).getLastD m = m := by
  cases m with
  | mk a t att men r =>
      cases r with
      | none => rfl
      | some p =>
          show (buildThread p ++ [Msg.mk a t att men (some p)]).getLastD _ = _
          simp

/-- C4 amended: for both the mention and the reply handler, the
reaction-decision request is issued over the response context with its
final turn REPLACED by the reaction-template human turn built from the
triggering message — the two contexts share all turns but the last and
have the same length, rather than the reaction context extending the
response context by an appended turn. -/
theorem C4_reaction_context_amended :
    (∀ (env : Env) (sess : Sess) (msg : Msg) (s : KvState)
      (rc pc : List ChatMsg) (s' : KvState),
      mentionContexts env sess msg s = .ok (rc, pc, s') →
      rc.length = pc.length ∧ rc.dropLast = pc.dropLast ∧
      ∃ ps, rc.getLast? =
        some (.human (.text (some (getReactionPrompt env msg)) :: ps))) ∧
    (∀ (env : Env) (sess : Sess) (msg : Msg) (s : KvState)
      (rc pc : List ChatMsg) (s' : KvState),
      replyContexts env sess msg s = .ok (rc, pc, s') →
      ∃ ps, rc = pc.dropLast ++
        [.human (.text (some (getReactionPrompt env msg)) :: ps)]) := by
  constructor
  · intro env sess msg s rc pc s' h
    unfold mentionContexts at h
    cases h1 : getIntroMessage env msg.actor (getMentionPrompt env msg.actor) s with
    | error e => simp only [h1] at h; simp at h
    | ok v1 =>
        obtain ⟨intro1, s1⟩ := v1
        simp only [h1] at h
        cases h2 : getHumanMessage env msg true s1 with
        | error e => simp only [h2] at h; simp at h
        | ok v2 =>
            obtain ⟨hm1, s2⟩ := v2
            simp only [h2] at h
            simp only [(getIntro_ok h1).2 s2 (getHuman_le h2)] at h
            cases h4 : getHumanMessage env msg false s2 with
            | error e => simp only [h4] at h; simp at h
            | ok v4 =>
                obtain ⟨hm2, s4⟩ := v4
                simp only [h4] at h
                simp only [Except.ok.injEq, Prod.mk.injEq] at h
                obtain ⟨hrc, hpc, _⟩ := h
                subst hrc; subst hpc
                obtain ⟨ps, hshape⟩ := getHuman_shape h2
                subst hshape
                exact ⟨rfl, rfl, ps, rfl⟩
  · intro env sess msg s rc pc s' h
    unfold replyContexts at h
    cases h0 : replyIntroPrompt env sess ((buildThread msg).headD msg) with
    | error e => simp only [h0] at h; simp at h
    | ok prompt =>
        simp only [h0] at h
        cases h1 : getIntroMessage env ((buildThread msg).headD msg).actor prompt s with
        | error e => simp only [h1] at h; simp at h
        | ok v1 =>
            obtain ⟨intro, s1⟩ := v1
            simp only [h1] at h
            cases h2 : threadTurns env sess (buildThread msg) s1 with
            | error e => simp only [h2] at h; simp at h
            | ok v2 =>
                obtain ⟨turns, s2⟩ := v2
                simp only [h2] at h
                cases h3 : getHumanMessage env ((buildThread msg).getLastD msg) true s2 with
                | error e => simp only [h3] at h; simp at h
                | ok v3 =>
                    obtain ⟨rturn, s3⟩ := v3
                    simp only [h3] at h
                    simp only [Except.ok.injEq, Prod.mk.injEq] at h
                    obtain ⟨hrc, hpc, _⟩ := h
                    subst hrc; subst hpc
                    obtain ⟨ps, hshape⟩ := getHuman_shape h3
                    rw [buildThread_getLast] at hshape
                    subst hshape
                    exact ⟨ps, rfl⟩

/-- A plain mention with no reply target, no attachments. -/
def msgM : Msg := .mk aliceW (some "hi") [] [] none

def sysW4 : ChatMsg := .system "@bot@bot.example"

def introW4 : ChatMsg := .human [.text (some "M:Alice")]

def rcW4 : List ChatMsg := [sysW4, introW4, .human [.text (some "R:> hi")]]

def pcW4 : List ChatMsg := [sysW4, introW4, .human [.text (some "hi")]]

/-- C4 counterexample: for a concrete mention event the reaction context
and the response context have the same three turns up to the last; the
reaction context is NOT the response context with the reaction turn
appended after it. -/
theorem C4_counterexample :
    mentionContexts baseEnv sessW msgM ⟨[], 0⟩ = .ok (rcW4, pcW4, ⟨[], 0⟩) ∧
    rcW4 ≠ pcW4 ++ [ChatMsg.human [.text (some (getReactionPrompt baseEnv msgM))]] :=
  ⟨by decide, by decide⟩

/-- C4 amended witness: the mention-part conclusion at the concrete
contexts of `msgM`. -/
theorem C4_witness :
    rcW4.length = pcW4.length ∧ rcW4.dropLast = pcW4.dropLast ∧
    ∃ ps, rcW4.getLast? =
      some (.human (.text (some (getReactionPrompt baseEnv msgM)) :: ps)) :=
  C4_reaction_context_amended.1 baseEnv sessW msgM ⟨[], 0⟩ rcW4 pcW4 ⟨[], 0⟩ (by decide)

end FediChatBot
